import Mathlib

/-!
Verification of the throughput-calculator computation core.

The Python source computes cycles-per-instruction (CPI) and throughput for a
pipeline with and without branch prediction, and sweeps parameter ranges to
build plot series and data tables.  We embed the arithmetic over `ℚ` (the
source's float arithmetic on the decimal inputs in question is exact at the
scale of the spec's 1e-9 tolerance), and model Python's runtime errors
(`ZeroDivisionError` from `x / 0`, `IndexError` from indexing `[-1]` on an
empty list) with an explicit error type.
-/

namespace ThroughputCalculator

/-- Runtime errors the modelled Python code can raise. -/
inductive PyErr : Type where
  | zeroDivision : PyErr
  | indexError : PyErr

/-- Python `int(x)` on a real value: truncation toward zero. -/
def pyTrunc (q : ℚ) : ℤ :=
  if 0 ≤ q then ⌊q⌋ else ⌈q⌉

/-- Python rounding of a real to the nearest integer, ties to even
(banker's rounding, the semantics of Python's built-in `round`). -/
def pyRoundInt (q : ℚ) : ℤ :=
  if q - ⌊q⌋ < 1 / 2 then ⌊q⌋
  else if 1 / 2 < q - ⌊q⌋ then ⌊q⌋ + 1
  else if ⌊q⌋ % 2 = 0 then ⌊q⌋ else ⌊q⌋ + 1

/-- Python `round(q, nd)`: round to `nd` decimal digits, ties to even. -/
def pyRound (q : ℚ) (nd : ℕ) : ℚ :=
  (pyRoundInt (q * 10 ^ nd) : ℚ) / 10 ^ nd

/-- Shared tail of both model functions: given the computed `cpi`, the source
evaluates `throughput = 1 / cpi` (raising `ZeroDivisionError` when `cpi = 0`)
and returns the pair `(cpi, throughput)`. -/
def throughputPair (cpi : ℚ) : Except PyErr (ℚ × ℚ) :=
  if cpi = 0 then .error .zeroDivision
  else .ok (cpi, 1 / cpi)

/-- `calculate_no_prediction(Pb, Pt, b)` from the source:
`cpi = 1 + Pb * Pt * b`, `throughput = 1 / cpi`. -/
def calculate_no_prediction (Pb Pt b : ℚ) : Except PyErr (ℚ × ℚ) :=
  throughputPair (1 + Pb * Pt * b)

/-- `calculate_with_prediction(Pb, Pt, b, Pc, c)` from the source:
`cpi = 1 + Pb * ((1 - Pc) * Pt * b + Pc * Pt * c)`, `throughput = 1 / cpi`. -/
def calculate_with_prediction (Pb Pt b Pc c : ℚ) : Except PyErr (ℚ × ℚ) :=
  throughputPair (1 + Pb * ((1 - Pc) * Pt * b + Pc * Pt * c))

/-- The axis builder used for the `Pb` and `Pt` ranges in part A
(identical code in `update_graph_part_a` and `update_table_part_a`):
values `round(min + res * i, 10)` for `i in range(int((max - min) / res) + 1)`,
with `max` appended when the last generated value is strictly below `max`.
`res = 0` raises `ZeroDivisionError` from the division; an empty generated
list raises `IndexError` from the `[-1]` access. -/
def buildAxisA (mn mx res : ℚ) : Except PyErr (List ℚ) :=
  if res = 0 then .error .zeroDivision
  else
    let vals := (List.range (pyTrunc ((mx - mn) / res) + 1).toNat).map
      (fun i => pyRound (mn + res * i) 10)
    match vals.getLast? with
    | none => .error .indexError
    | some last => .ok (if last < mx then vals ++ [mx] else vals)

/-- The axis builder used for the `Pc` range in part B
(identical code in `update_graph_part_b` and `update_table_part_b`):
values `min + res * i` for `i in range(int((max - min) / res) + 1)`,
with no rounding and no appending of `max`. -/
def buildAxisPc (mn mx res : ℚ) : Except PyErr (List ℚ) :=
  if res = 0 then .error .zeroDivision
  else .ok ((List.range (pyTrunc ((mx - mn) / res) + 1).toNat).map
    (fun i => mn + res * i))

/-- Semantics of a Python list comprehension whose body may raise:
elements are produced left to right and the first error aborts the whole
computation. -/
def mapExcept {α β : Type} (f : α → Except PyErr β) : List α → Except PyErr (List β)
  | [] => .ok []
  | a :: l =>
    match f a with
    | .error e => .error e
    | .ok b =>
      match mapExcept f l with
      | .error e => .error e
      | .ok bs => .ok (b :: bs)

/-- One row of the part-A table: columns `Pb`, `Pt`, `b`, `CPI`, `Throughput`. -/
structure RecA : Type where
  Pb : ℚ
  Pt : ℚ
  b : ℚ
  CPI : ℚ
  Throughput : ℚ

/-- Loop body of `update_table_part_a`: call `calculate_no_prediction` and
append one row, with `Pb` kept at full precision, `Pt` rounded to 3 decimals,
and `CPI`/`Throughput` rounded to 3 decimals. -/
def rowA (b Pt Pb : ℚ) : Except PyErr RecA :=
  match calculate_no_prediction Pb Pt b with
  | .error e => .error e
  | .ok r => .ok ⟨Pb, pyRound Pt 3, b, pyRound r.1 3, pyRound r.2 3⟩

/-- The record sequence built by `update_table_part_a`: nested loops
`for b: for Pt: for Pb:` appending rows in order. -/
def update_table_part_a (bs pts pbs : List ℚ) : Except PyErr (List RecA) :=
  match mapExcept (fun b =>
      match mapExcept (fun pt => mapExcept (fun pb => rowA b pt pb) pbs) pts with
      | .error e => .error e
      | .ok inner => .ok inner.flatten) bs with
  | .error e => .error e
  | .ok blocks => .ok blocks.flatten

/-- One row of the part-B table: columns `Pc`, `Pt`, `b`, `c`, `CPI`,
`Throughput`. -/
structure RecB : Type where
  Pc : ℚ
  Pt : ℚ
  b : ℚ
  c : ℚ
  CPI : ℚ
  Throughput : ℚ

/-- Loop body of `update_table_part_b`: with the fixed values
`Pb, Pt, b = 0.25, 0.6, 4`, call `calculate_with_prediction` and append one
row, with `Pc` kept at full precision and `CPI`/`Throughput` rounded to 3
decimals. -/
def rowB (c Pc : ℚ) : Except PyErr RecB :=
  match calculate_with_prediction (1/4) (3/5) 4 Pc c with
  | .error e => .error e
  | .ok r => .ok ⟨Pc, 3/5, 4, c, pyRound r.1 3, pyRound r.2 3⟩

/-- The record sequence built by `update_table_part_b`: nested loops
`for c: for Pc:` appending rows in order. -/
def update_table_part_b (cs pcs : List ℚ) : Except PyErr (List RecB) :=
  match mapExcept (fun c => mapExcept (fun pc => rowB c pc) pcs) cs with
  | .error e => .error e
  | .ok blocks => .ok blocks.flatten

/-- One plot series of `update_graph_part_b`: for a given `c`, the source
computes `values = [calculate_with_prediction(0.25, 0.6, 4, Pc, c) for Pc in
Pc_values]`, selects CPI or throughput as the y column and calls
`ax.plot(Pc_values, y_values)` — the x coordinates handed to the plot are the
axis values themselves. -/
def update_graph_part_b_series (useCpi : Bool) (c : ℚ) (pcs : List ℚ) :
    Except PyErr (List ℚ × List ℚ) :=
  match mapExcept (fun pc => calculate_with_prediction (1/4) (3/5) 4 pc c) pcs with
  | .error e => .error e
  | .ok values => .ok (pcs, values.map (fun v => if useCpi then v.1 else v.2))

/-- The CPI computed by `calculate_with_prediction` at part B's fixed
`Pb = 0.25`, `Pt = 0.6`, `b = 4`. -/
def cpiB (c Pc : ℚ) : ℚ := 1 + (1/4) * ((1 - Pc) * (3/5) * 4 + Pc * (3/5) * c)

/-- The row `update_table_part_b` appends for a combination `(c, Pc)` when the
model call succeeds. -/
def recBodyB (c Pc : ℚ) : RecB :=
  ⟨Pc, 3/5, 4, c, pyRound (cpiB c Pc) 3, pyRound (1 / cpiB c Pc) 3⟩

/-- The CPI computed by `calculate_no_prediction`. -/
def cpiA (b pt pb : ℚ) : ℚ := 1 + pb * pt * b

/-- The row `update_table_part_a` appends for a combination `(b, pt, pb)` when
the model call succeeds. -/
def recBodyA (b pt pb : ℚ) : RecA :=
  ⟨pb, pyRound pt 3, b, pyRound (cpiA b pt pb) 3, pyRound (1 / cpiA b pt pb) 3⟩

/-! ## Helper lemmas -/

lemma pyRoundInt_intCast (z : ℤ) : pyRoundInt (z : ℚ) = z := by
  simp [pyRoundInt, Int.floor_intCast]

/-- Python's `round` is the identity on a rational that is exactly
representable with `nd` decimal digits. -/
lemma pyRound_rep {q : ℚ} {nd : ℕ} {z : ℤ} (h : q * 10 ^ nd = (z : ℚ)) :
    pyRound q nd = q := by
  rw [pyRound, h, pyRoundInt_intCast, ← h,
    mul_div_cancel_right₀ _ (by positivity : ((10:ℚ)) ^ nd ≠ 0)]

lemma pyRound_eval {q r : ℚ} {z : ℤ} (hq : q = r) (h : r * 10 ^ 10 = (z : ℚ)) :
    pyRound q 10 = r := by rw [hq, pyRound_rep h]

/-- Inversion for a successful model result: the pair is `(cpi, 1 / cpi)`. -/
lemma throughputPair_ok {x cpi tp : ℚ} (h : throughputPair x = .ok (cpi, tp)) :
    cpi = x ∧ tp = 1 / x := by
  rw [throughputPair] at h
  split_ifs at h
  simp only [Except.ok.injEq, Prod.mk.injEq] at h
  exact ⟨h.1.symm, h.2.symm⟩

lemma throughputPair_ok_of_ne {x : ℚ} (h : x ≠ 0) :
    throughputPair x = .ok (x, 1 / x) := by
  rw [throughputPair, if_neg h]

lemma mapExcept_ok {α β : Type} {f : α → Except PyErr β} {g : α → β} :
    ∀ {l : List α}, (∀ a ∈ l, f a = .ok (g a)) → mapExcept f l = .ok (l.map g)
  | [], _ => rfl
  | a :: l, h => by
    have ha : f a = .ok (g a) := h a (List.mem_cons_self a l)
    have hl : mapExcept f l = .ok (l.map g) :=
      mapExcept_ok (fun x hx => h x (List.mem_cons_of_mem a hx))
    simp [mapExcept, ha, hl]

lemma flatten_length_const {β : Type} (n : ℕ) :
    ∀ blocks : List (List β), (∀ bl ∈ blocks, bl.length = n) →
      blocks.flatten.length = blocks.length * n
  | [], _ => by simp
  | bl :: blocks, h => by
    have hb : bl.length = n := h bl (List.mem_cons_self bl blocks)
    have ih := flatten_length_const n blocks
      (fun x hx => h x (List.mem_cons_of_mem bl hx))
    simp [List.flatten_cons, List.length_append, hb, ih, Nat.succ_mul, Nat.add_comm]

lemma drop_append_len {β : Type} :
    ∀ (l₁ l₂ : List β) (k : ℕ), (l₁ ++ l₂).drop (l₁.length + k) = l₂.drop k
  | [], l₂, k => by simp
  | a :: l₁, l₂, k => by
    simp [List.length_cons, Nat.succ_add, drop_append_len l₁ l₂ k]

lemma take_append_len {β : Type} :
    ∀ (l₁ l₂ : List β), (l₁ ++ l₂).take l₁.length = l₁
  | [], l₂ => rfl
  | a :: l₁, l₂ => by
    simp [List.length_cons, take_append_len l₁ l₂]

/-- Taking the `i`-th length-`n` slice of a concatenation of length-`n` blocks
recovers the `i`-th block. -/
lemma flatten_slice {β : Type} (n : ℕ) :
    ∀ (blocks : List (List β)), (∀ bl ∈ blocks, bl.length = n) →
      ∀ i (hi : i < blocks.length),
        (blocks.flatten.drop (i * n)).take n = blocks.get ⟨i, hi⟩
  | [], _, i, hi => absurd hi (Nat.not_lt_zero i)
  | bl :: blocks, h, 0, _ => by
    have hb : bl.length = n := h bl (List.mem_cons_self bl blocks)
    simp only [List.flatten_cons, Nat.zero_mul, List.drop_zero, List.get]
    rw [← hb, take_append_len]
  | bl :: blocks, h, i + 1, hi => by
    have hb : bl.length = n := h bl (List.mem_cons_self bl blocks)
    have ih := flatten_slice n blocks
      (fun x hx => h x (List.mem_cons_of_mem bl hx)) i (Nat.lt_of_succ_lt_succ hi)
    simp only [List.flatten_cons, List.get]
    have hidx : (i + 1) * n = bl.length + i * n := by rw [hb]; ring
    rw [hidx, drop_append_len]
    exact ih

lemma rowB_ok {c pc : ℚ} (h : cpiB c pc ≠ 0) : rowB c pc = .ok (recBodyB c pc) := by
  have hcalc : calculate_with_prediction (1/4) (3/5) 4 pc c =
      .ok (cpiB c pc, 1 / cpiB c pc) := by
    unfold calculate_with_prediction cpiB at *
    exact throughputPair_ok_of_ne h
  unfold rowB
  rw [hcalc]
  rfl

lemma rowA_ok {b pt pb : ℚ} (h : cpiA b pt pb ≠ 0) :
    rowA b pt pb = .ok (recBodyA b pt pb) := by
  have hcalc : calculate_no_prediction pb pt b =
      .ok (cpiA b pt pb, 1 / cpiA b pt pb) := by
    unfold calculate_no_prediction cpiA at *
    exact throughputPair_ok_of_ne h
  unfold rowA
  rw [hcalc]
  rfl

lemma tableB_ok (cs pcs : List ℚ) (h : ∀ c ∈ cs, ∀ pc ∈ pcs, cpiB c pc ≠ 0) :
    update_table_part_b cs pcs =
      .ok ((cs.map (fun c => pcs.map (recBodyB c))).flatten) := by
  have hmap : mapExcept (fun c => mapExcept (fun pc => rowB c pc) pcs) cs
      = .ok (cs.map (fun c => pcs.map (recBodyB c))) :=
    mapExcept_ok (fun c hc => mapExcept_ok (fun pc hpc => rowB_ok (h c hc pc hpc)))
  rw [update_table_part_b, hmap]

lemma tableA_ok (bs pts pbs : List ℚ)
    (h : ∀ b ∈ bs, ∀ pt ∈ pts, ∀ pb ∈ pbs, cpiA b pt pb ≠ 0) :
    update_table_part_a bs pts pbs =
      .ok ((bs.map (fun b =>
        (pts.map (fun pt => pbs.map (recBodyA b pt))).flatten)).flatten) := by
  have hmap : mapExcept (fun b =>
      match mapExcept (fun pt => mapExcept (fun pb => rowA b pt pb) pbs) pts with
      | .error e => .error e
      | .ok inner => .ok inner.flatten) bs
      = .ok (bs.map (fun b =>
          (pts.map (fun pt => pbs.map (recBodyA b pt))).flatten)) := by
    apply mapExcept_ok
    intro b hb
    have hinner : mapExcept (fun pt => mapExcept (fun pb => rowA b pt pb) pbs) pts
        = .ok (pts.map (fun pt => pbs.map (recBodyA b pt))) :=
      mapExcept_ok (fun pt hpt =>
        mapExcept_ok (fun pb hpb => rowA_ok (h b hb pt hpt pb hpb)))
    simp only [hinner]
  rw [update_table_part_a, hmap]

lemma seriesB_ok (u : Bool) (c : ℚ) (pcs : List ℚ)
    (h : ∀ pc ∈ pcs, cpiB c pc ≠ 0) :
    update_graph_part_b_series u c pcs =
      .ok (pcs, pcs.map (fun pc => if u then cpiB c pc else 1 / cpiB c pc)) := by
  have hmap : mapExcept (fun pc => calculate_with_prediction (1/4) (3/5) 4 pc c) pcs
      = .ok (pcs.map (fun pc => (cpiB c pc, 1 / cpiB c pc))) :=
    mapExcept_ok (fun pc hpc => by
      unfold calculate_with_prediction cpiB at *
      exact throughputPair_ok_of_ne (h pc hpc))
  rw [update_graph_part_b_series, hmap]
  simp [List.map_map, Function.comp]

/-! ## Claim theorems -/

/-- Claim C1: for every input, the no-prediction model returns
`cpi = 1 + Pb * Pt * b` and `throughput = 1 / cpi`; in particular
`no_prediction(0.25, 0.6, 4)` returns `cpi = 1.6` and `throughput = 0.625`
(the embedding over `ℚ` is exact, hence within the 1e-9 tolerance). -/
theorem claim1_no_prediction_formula :
    (∀ Pb Pt b : ℚ, 1 + Pb * Pt * b ≠ 0 →
      calculate_no_prediction Pb Pt b =
        .ok (1 + Pb * Pt * b, 1 / (1 + Pb * Pt * b))) ∧
    calculate_no_prediction (1/4) (3/5) 4 = .ok (8/5, 5/8) := by
  constructor
  · intro Pb Pt b h
    exact throughputPair_ok_of_ne h
  · rw [calculate_no_prediction, throughputPair,
      show (1 + (1:ℚ)/4 * (3/5) * 4) = 8/5 by norm_num, if_neg (by norm_num)]
    norm_num

theorem claim1_no_prediction_formula_inst :
    (1 + (1:ℚ) * 1 * 1 ≠ 0) ∧
    calculate_no_prediction 1 1 1 = .ok (1 + 1 * 1 * 1, 1 / (1 + 1 * 1 * 1)) :=
  ⟨by norm_num, claim1_no_prediction_formula.1 1 1 1 (by norm_num)⟩

/-- Claim C2: for every input, the with-prediction model returns
`cpi = 1 + Pb * ((1 - Pc) * Pt * b + Pc * Pt * c)` and `throughput = 1 / cpi`;
in particular `with_prediction(0.25, 0.6, 4, 0.5, 1)` returns `cpi = 1.375`
and `throughput = 8/11 ≈ 0.7273`. -/
theorem claim2_with_prediction_formula :
    (∀ Pb Pt b Pc c : ℚ, 1 + Pb * ((1 - Pc) * Pt * b + Pc * Pt * c) ≠ 0 →
      calculate_with_prediction Pb Pt b Pc c =
        .ok (1 + Pb * ((1 - Pc) * Pt * b + Pc * Pt * c),
             1 / (1 + Pb * ((1 - Pc) * Pt * b + Pc * Pt * c)))) ∧
    calculate_with_prediction (1/4) (3/5) 4 (1/2) 1 = .ok (11/8, 8/11) := by
  constructor
  · intro Pb Pt b Pc c h
    exact throughputPair_ok_of_ne h
  · rw [calculate_with_prediction, throughputPair,
      show (1 + (1:ℚ)/4 * ((1 - 1/2) * (3/5) * 4 + 1/2 * (3/5) * 1)) = 11/8 by norm_num,
      if_neg (by norm_num)]
    norm_num

theorem claim2_with_prediction_formula_inst :
    (1 + (1:ℚ) * ((1 - 1) * 1 * 1 + 1 * 1 * 1) ≠ 0) ∧
    calculate_with_prediction 1 1 1 1 1 =
      .ok (1 + 1 * ((1 - 1) * 1 * 1 + 1 * 1 * 1),
           1 / (1 + 1 * ((1 - 1) * 1 * 1 + 1 * 1 * 1))) :=
  ⟨by norm_num, claim2_with_prediction_formula.1 1 1 1 1 1 (by norm_num)⟩

/-- Claim C3 (code bug): the part-A axis builder on range `(0, 1, 0.3)` does
produce `[0, 0.3, 0.6, 0.9, 1.0]` as the claim describes, but the
prediction-accuracy (`Pc`) axis of part B applies neither the 10-decimal
rounding nor the final append of `max`: on the same range it produces only
`[0, 0.3, 0.6, 0.9]`, which does not contain the maximum `1`. -/
theorem claim3_pc_axis_divergence :
    buildAxisA 0 1 (3/10) = .ok [0, 3/10, 3/5, 9/10, 1] ∧
    buildAxisPc 0 1 (3/10) = .ok [0, 3/10, 3/5, 9/10] ∧
    (1:ℚ) ∉ [(0:ℚ), 3/10, 3/5, 9/10] := by
  have h1 : pyTrunc ((1 - 0) / ((3:ℚ)/10)) = 3 := by
    rw [pyTrunc, if_pos (by norm_num)]
    apply Int.floor_eq_iff.mpr
    norm_num
  refine ⟨?_, ?_, ?_⟩
  · rw [buildAxisA, if_neg (by norm_num : ¬((3:ℚ)/10) = 0)]
    simp only [h1]
    rw [show ((3:ℤ) + 1).toNat = 4 from rfl, show List.range 4 = [0,1,2,3] from rfl]
    simp only [List.map]
    rw [pyRound_eval (r := 0) (z := 0) (by norm_num) (by norm_num),
        pyRound_eval (r := 3/10) (z := 3000000000) (by norm_num) (by norm_num),
        pyRound_eval (r := 3/5) (z := 6000000000) (by norm_num) (by norm_num),
        pyRound_eval (r := 9/10) (z := 9000000000) (by norm_num) (by norm_num)]
    simp only [List.getLast?]
    norm_num
  · rw [buildAxisPc, if_neg (by norm_num : ¬((3:ℚ)/10) = 0), h1]
    rw [show ((3:ℤ) + 1).toNat = 4 from rfl, show List.range 4 = [0,1,2,3] from rfl]
    simp only [List.map]
    norm_num
  · norm_num [List.mem_cons, List.not_mem_nil]

/-- Claim C5: setting `Pc = 1` makes the with-prediction model coincide with
the no-prediction model at penalty `c`, and `Pc = 0` makes it coincide with
the no-prediction model at penalty `b` — exactly, including the error case. -/
theorem claim5_prediction_reduces (Pb Pt b c : ℚ) :
    calculate_with_prediction Pb Pt b 1 c = calculate_no_prediction Pb Pt c ∧
    calculate_with_prediction Pb Pt b 0 c = calculate_no_prediction Pb Pt b := by
  constructor
  · exact congrArg throughputPair (by ring)
  · exact congrArg throughputPair (by ring)

/-- Claim C7, counterexample: the code performs no range validation.  At the
claim's own inputs, `build_axis(min=1, max=0, res=0.1)` in part A fails with
an IndexError (not an InvalidRange error), `build_axis(min=0, max=1, res=0)`
fails with a ZeroDivisionError, and the part-B (`Pc`) axis builder on
`(1, 0, 0.1)` simply returns the empty sequence without any error. -/
theorem claim7_invalid_range_cex :
    buildAxisA 1 0 (1/10) = .error .indexError ∧
    buildAxisA 0 1 0 = .error .zeroDivision ∧
    buildAxisPc 1 0 (1/10) = .ok [] := by
  have h1 : pyTrunc ((0 - 1) / ((1:ℚ)/10)) = -10 := by
    rw [pyTrunc, if_neg (by norm_num)]
    apply Int.ceil_eq_iff.mpr
    norm_num
  refine ⟨?_, ?_, ?_⟩
  · rw [buildAxisA, if_neg (by norm_num : ¬((1:ℚ)/10) = 0)]
    simp only [h1]
    rfl
  · rw [buildAxisA, if_pos rfl]
  · rw [buildAxisPc, if_neg (by norm_num : ¬((1:ℚ)/10) = 0), h1]
    rfl

/-- Claim C7, amended: axis construction performs no typed range validation.
With `resolution = 0` every axis path fails with a division-by-zero error;
when the generated index range is empty (truncated count `+ 1 ≤ 0`, as at
`min = 1, max = 0, res = 0.1`), the part-A builder fails with an index error
while the part-B builder returns the empty sequence; and with `max < min` but
a nonempty index range the part-A builder returns a sequence with no error at
all, e.g. `build_axis_A(1, 0.95, 0.1) = [1]`. -/
theorem claim7_axis_error_behavior :
    (∀ mn mx : ℚ, buildAxisA mn mx 0 = .error .zeroDivision ∧
      buildAxisPc mn mx 0 = .error .zeroDivision) ∧
    (∀ mn mx res : ℚ, res ≠ 0 → pyTrunc ((mx - mn) / res) + 1 ≤ 0 →
      buildAxisA mn mx res = .error .indexError ∧
      buildAxisPc mn mx res = .ok []) ∧
    buildAxisA 1 (19/20) (1/10) = .ok [1] := by
  refine ⟨?_, ?_, ?_⟩
  · intro mn mx
    constructor
    · rw [buildAxisA, if_pos rfl]
    · rw [buildAxisPc, if_pos rfl]
  · intro mn mx res hres hn
    have h0 : (pyTrunc ((mx - mn) / res) + 1).toNat = 0 := Int.toNat_of_nonpos hn
    constructor
    · rw [buildAxisA, if_neg hres]
      simp only [h0]
      rfl
    · rw [buildAxisPc, if_neg hres, h0]
      rfl
  · have h1 : pyTrunc ((19/20 - 1) / ((1:ℚ)/10)) = 0 := by
      rw [pyTrunc, if_neg (by norm_num)]
      apply Int.ceil_eq_iff.mpr
      norm_num
    rw [buildAxisA, if_neg (by norm_num : ¬((1:ℚ)/10) = 0)]
    simp only [h1]
    rw [show ((0:ℤ) + 1).toNat = 1 from rfl, show List.range 1 = [0] from rfl]
    simp only [List.map]
    rw [pyRound_eval (r := 1) (z := 10000000000) (by norm_num) (by norm_num)]
    simp only [List.getLast?]
    rw [if_neg (by norm_num)]

theorem claim7_axis_error_behavior_inst :
    buildAxisA (2/5) (1/5) (1/10) = .error .indexError ∧
    buildAxisPc (2/5) (1/5) (1/10) = .ok [] :=
  claim7_axis_error_behavior.2.1 (2/5) (1/5) (1/10) (by norm_num)
    (by
      rw [pyTrunc, if_neg (by norm_num)]
      have h : ⌈((1:ℚ)/5 - 2/5) / (1/10)⌉ = -2 := by
        apply Int.ceil_eq_iff.mpr
        norm_num
      rw [h]
      norm_num)

/-- Claim C8: whenever the computed `cpi` is zero the model functions fail
with a division-by-zero error that is surfaced to the caller, and for every
other input they return normally. -/
theorem claim8_division_by_zero (Pb Pt b Pc c : ℚ) :
    (1 + Pb * Pt * b = 0 →
      calculate_no_prediction Pb Pt b = .error .zeroDivision) ∧
    (1 + Pb * Pt * b ≠ 0 → ∃ p, calculate_no_prediction Pb Pt b = .ok p) ∧
    (1 + Pb * ((1 - Pc) * Pt * b + Pc * Pt * c) = 0 →
      calculate_with_prediction Pb Pt b Pc c = .error .zeroDivision) ∧
    (1 + Pb * ((1 - Pc) * Pt * b + Pc * Pt * c) ≠ 0 →
      ∃ p, calculate_with_prediction Pb Pt b Pc c = .ok p) := by
  refine ⟨?_, ?_, ?_, ?_⟩
  · intro h
    rw [calculate_no_prediction, throughputPair, if_pos h]
  · intro h
    exact ⟨_, throughputPair_ok_of_ne h⟩
  · intro h
    rw [calculate_with_prediction, throughputPair, if_pos h]
  · intro h
    exact ⟨_, throughputPair_ok_of_ne h⟩

theorem claim8_division_by_zero_inst :
    calculate_no_prediction (-1) 1 1 = .error .zeroDivision ∧
    (∃ p, calculate_no_prediction 1 1 1 = .ok p) ∧
    calculate_with_prediction (-1) 1 1 0 0 = .error .zeroDivision ∧
    (∃ p, calculate_with_prediction 1 1 1 1 1 = .ok p) :=
  ⟨(claim8_division_by_zero (-1) 1 1 0 0).1 (by norm_num),
   (claim8_division_by_zero 1 1 1 1 1).2.1 (by norm_num),
   (claim8_division_by_zero (-1) 1 1 0 0).2.2.1 (by norm_num),
   (claim8_division_by_zero 1 1 1 1 1).2.2.2 (by norm_num)⟩

/-- Claim C4: every successful result of either model function satisfies
`throughput = 1 / cpi` exactly, and for inputs in the expected domain
(`Pb, Pt, Pc ∈ [0,1]`, `b, c ≥ 0`) the functions return normally with
`cpi ≥ 1` and `throughput > 0`. -/
theorem claim4_model_result_invariant :
    (∀ Pb Pt b cpi tp : ℚ,
      calculate_no_prediction Pb Pt b = .ok (cpi, tp) → tp = 1 / cpi) ∧
    (∀ Pb Pt b Pc c cpi tp : ℚ,
      calculate_with_prediction Pb Pt b Pc c = .ok (cpi, tp) → tp = 1 / cpi) ∧
    (∀ Pb Pt b Pc c : ℚ, 0 ≤ Pb → Pb ≤ 1 → 0 ≤ Pt → Pt ≤ 1 →
      0 ≤ Pc → Pc ≤ 1 → 0 ≤ b → 0 ≤ c →
      ∃ cpi₁ tp₁ cpi₂ tp₂ : ℚ,
        calculate_no_prediction Pb Pt b = .ok (cpi₁, tp₁) ∧
        tp₁ = 1 / cpi₁ ∧ 1 ≤ cpi₁ ∧ 0 < tp₁ ∧
        calculate_with_prediction Pb Pt b Pc c = .ok (cpi₂, tp₂) ∧
        tp₂ = 1 / cpi₂ ∧ 1 ≤ cpi₂ ∧ 0 < tp₂) := by
  refine ⟨?_, ?_, ?_⟩
  · intro Pb Pt b cpi tp h
    obtain ⟨h1, h2⟩ := throughputPair_ok h
    rw [h2, h1]
  · intro Pb Pt b Pc c cpi tp h
    obtain ⟨h1, h2⟩ := throughputPair_ok h
    rw [h2, h1]
  · intro Pb Pt b Pc c hPb0 hPb1 hPt0 hPt1 hPc0 hPc1 hb hc
    have h1 : (1:ℚ) ≤ 1 + Pb * Pt * b := by
      nlinarith [mul_nonneg (mul_nonneg hPb0 hPt0) hb]
    have h2 : (1:ℚ) ≤ 1 + Pb * ((1 - Pc) * Pt * b + Pc * Pt * c) := by
      nlinarith [mul_nonneg hPb0 (add_nonneg
        (mul_nonneg (mul_nonneg (sub_nonneg.mpr hPc1) hPt0) hb)
        (mul_nonneg (mul_nonneg hPc0 hPt0) hc))]
    have h1p : (0:ℚ) < 1 + Pb * Pt * b := lt_of_lt_of_le one_pos h1
    have h2p : (0:ℚ) < 1 + Pb * ((1 - Pc) * Pt * b + Pc * Pt * c) :=
      lt_of_lt_of_le one_pos h2
    exact ⟨_, _, _, _,
      throughputPair_ok_of_ne (ne_of_gt h1p), rfl, h1, by positivity,
      throughputPair_ok_of_ne (ne_of_gt h2p), rfl, h2, by positivity⟩

theorem claim4_model_result_invariant_inst :
    ∃ cpi₁ tp₁ cpi₂ tp₂ : ℚ,
      calculate_no_prediction 1 1 1 = .ok (cpi₁, tp₁) ∧
      tp₁ = 1 / cpi₁ ∧ 1 ≤ cpi₁ ∧ 0 < tp₁ ∧
      calculate_with_prediction 1 1 1 1 1 = .ok (cpi₂, tp₂) ∧
      tp₂ = 1 / cpi₂ ∧ 1 ≤ cpi₂ ∧ 0 < tp₂ :=
  claim4_model_result_invariant.2.2 1 1 1 1 1 (by norm_num) (by norm_num)
    (by norm_num) (by norm_num) (by norm_num) (by norm_num) (by norm_num)
    (by norm_num)

/-- Claim C10: for `Pb, Pt ≥ 0` and `0 ≤ c ≤ b`, the with-prediction CPI is
monotone non-increasing and the throughput monotone non-decreasing in the
prediction accuracy `Pc` over the accuracy domain `[0, 1]`. -/
theorem claim10_monotone_in_accuracy (Pb Pt b c Pc₁ Pc₂ : ℚ)
    (hPb : 0 ≤ Pb) (hPt : 0 ≤ Pt) (hc : 0 ≤ c) (hcb : c ≤ b)
    (h0 : 0 ≤ Pc₁) (h12 : Pc₁ ≤ Pc₂) (h1 : Pc₂ ≤ 1) :
    ∃ cpi₁ tp₁ cpi₂ tp₂ : ℚ,
      calculate_with_prediction Pb Pt b Pc₁ c = .ok (cpi₁, tp₁) ∧
      calculate_with_prediction Pb Pt b Pc₂ c = .ok (cpi₂, tp₂) ∧
      cpi₂ ≤ cpi₁ ∧ tp₁ ≤ tp₂ := by
  have hb : (0:ℚ) ≤ b := le_trans hc hcb
  have he1 : (1:ℚ) ≤ 1 + Pb * ((1 - Pc₁) * Pt * b + Pc₁ * Pt * c) := by
    nlinarith [mul_nonneg hPb (add_nonneg
      (mul_nonneg (mul_nonneg (sub_nonneg.mpr (le_trans h12 h1)) hPt) hb)
      (mul_nonneg (mul_nonneg h0 hPt) hc))]
  have he2 : (1:ℚ) ≤ 1 + Pb * ((1 - Pc₂) * Pt * b + Pc₂ * Pt * c) := by
    nlinarith [mul_nonneg hPb (add_nonneg
      (mul_nonneg (mul_nonneg (sub_nonneg.mpr h1) hPt) hb)
      (mul_nonneg (mul_nonneg (le_trans h0 h12) hPt) hc))]
  have hmono : 1 + Pb * ((1 - Pc₂) * Pt * b + Pc₂ * Pt * c) ≤
      1 + Pb * ((1 - Pc₁) * Pt * b + Pc₁ * Pt * c) := by
    nlinarith [mul_nonneg (mul_nonneg (mul_nonneg hPb hPt)
      (sub_nonneg.mpr h12)) (sub_nonneg.mpr hcb)]
  refine ⟨_, _, _, _,
    throughputPair_ok_of_ne (ne_of_gt (lt_of_lt_of_le one_pos he1)),
    throughputPair_ok_of_ne (ne_of_gt (lt_of_lt_of_le one_pos he2)),
    hmono, ?_⟩
  exact one_div_le_one_div_of_le (lt_of_lt_of_le one_pos he2) hmono

/-- Claim C6: over two axes of sizes `m` (outer, the `c` axis) and `n`
(inner, the `Pc` axis), the part-B sweep produces exactly `m * n` records,
and consecutive slices of length `n` — one per outer value, in order —
reproduce the full inner-axis record sequence for that outer value. -/
theorem claim6_sweep_shape (cs pcs : List ℚ)
    (h : ∀ c ∈ cs, ∀ pc ∈ pcs, cpiB c pc ≠ 0) :
    ∃ L : List RecB, update_table_part_b cs pcs = .ok L ∧
      L.length = cs.length * pcs.length ∧
      ∀ i (hi : i < cs.length),
        (L.drop (i * pcs.length)).take pcs.length =
          pcs.map (recBodyB (cs.get ⟨i, hi⟩)) := by
  have hlen : ∀ bl ∈ cs.map (fun c => pcs.map (recBodyB c)), bl.length = pcs.length := by
    intro bl hbl
    obtain ⟨c, _, rfl⟩ := List.mem_map.mp hbl
    simp
  refine ⟨_, tableB_ok cs pcs h, ?_, ?_⟩
  · rw [flatten_length_const pcs.length _ hlen, List.length_map]
  · intro i hi
    have hi2 : i < (cs.map (fun c => pcs.map (recBodyB c))).length := by
      simpa using hi
    rw [flatten_slice pcs.length _ hlen i hi2]
    simp [List.get_eq_getElem]

theorem claim6_sweep_shape_inst :
    ∃ L : List RecB, update_table_part_b [1, 2] [0, 1/2] = .ok L ∧
      L.length = ([1, 2] : List ℚ).length * ([0, 1/2] : List ℚ).length ∧
      ∀ i (hi : i < ([1, 2] : List ℚ).length),
        (L.drop (i * ([0, 1/2] : List ℚ).length)).take ([0, 1/2] : List ℚ).length =
          ([0, 1/2] : List ℚ).map (recBodyB (([1, 2] : List ℚ).get ⟨i, hi⟩)) :=
  claim6_sweep_shape [1, 2] [0, 1/2] (by
    intro c hc pc hpc
    fin_cases hc <;> fin_cases hpc <;> norm_num [cpiB])

/-- Claim C9: in every record of either table, the `CPI` and `Throughput`
columns are the model outputs rounded to 3 decimals, while the swept axis
value used as the plot x coordinate (`Pb` in part A, `Pc` in part B) is kept
at full generation precision — the plot series receives the axis values
unchanged and its y values unrounded. -/
theorem claim9_rounding_policy (bs pts pbs : List ℚ)
    (hA : ∀ b ∈ bs, ∀ pt ∈ pts, ∀ pb ∈ pbs, cpiA b pt pb ≠ 0)
    (c : ℚ) (pcs : List ℚ) (hB : ∀ pc ∈ pcs, cpiB c pc ≠ 0) :
    ∃ (LA : List RecA) (LB : List RecB) (ysC ysT : List ℚ),
      update_table_part_a bs pts pbs = .ok LA ∧
      (∀ r ∈ LA, ∃ b ∈ bs, ∃ pt ∈ pts, ∃ pb ∈ pbs,
        r.Pb = pb ∧ r.Pt = pyRound pt 3 ∧
        r.CPI = pyRound (cpiA b pt pb) 3 ∧
        r.Throughput = pyRound (1 / cpiA b pt pb) 3) ∧
      update_table_part_b [c] pcs = .ok LB ∧
      update_graph_part_b_series true c pcs = .ok (pcs, ysC) ∧
      update_graph_part_b_series false c pcs = .ok (pcs, ysT) ∧
      LB.map RecB.Pc = pcs ∧
      LB.map RecB.CPI = ysC.map (fun y => pyRound y 3) ∧
      LB.map RecB.Throughput = ysT.map (fun y => pyRound y 3) := by
  have hB1 : ∀ c2 ∈ [c], ∀ pc ∈ pcs, cpiB c2 pc ≠ 0 := by
    intro c2 hc2 pc hpc
    rw [List.mem_singleton] at hc2
    subst hc2
    exact hB pc hpc
  refine ⟨_, pcs.map (recBodyB c), pcs.map (fun pc => cpiB c pc),
    pcs.map (fun pc => 1 / cpiB c pc),
    tableA_ok bs pts pbs hA, ?_, ?_, ?_, ?_, ?_, ?_, ?_⟩
  · intro r hr
    simp only [List.mem_flatten, List.mem_map] at hr
    obtain ⟨bl, ⟨b, hb, rfl⟩, hrbl⟩ := hr
    simp only [List.mem_flatten, List.mem_map] at hrbl
    obtain ⟨bl2, ⟨pt, hpt, rfl⟩, hrbl2⟩ := hrbl
    simp only [List.mem_map] at hrbl2
    obtain ⟨pb, hpb, rfl⟩ := hrbl2
    exact ⟨b, hb, pt, hpt, pb, hpb, rfl, rfl, rfl, rfl⟩
  · have h := tableB_ok [c] pcs hB1
    simpa using h
  · have h := seriesB_ok true c pcs hB
    simpa using h
  · have h := seriesB_ok false c pcs hB
    simpa using h
  · simp only [List.map_map]
    have h : ∀ pc ∈ pcs, (RecB.Pc ∘ recBodyB c) pc = id pc := by
      intro pc _
      rfl
    rw [List.map_congr_left h, List.map_id]
  · simp [recBodyB, List.map_map, Function.comp]
  · simp [recBodyB, List.map_map, Function.comp]

theorem claim9_rounding_policy_inst :
    ∃ (LA : List RecA) (LB : List RecB) (ysC ysT : List ℚ),
      update_table_part_a [3] [3/5] [1/4] = .ok LA ∧
      (∀ r ∈ LA, ∃ b ∈ ([3] : List ℚ), ∃ pt ∈ ([3/5] : List ℚ),
        ∃ pb ∈ ([1/4] : List ℚ),
        r.Pb = pb ∧ r.Pt = pyRound pt 3 ∧
        r.CPI = pyRound (cpiA b pt pb) 3 ∧
        r.Throughput = pyRound (1 / cpiA b pt pb) 3) ∧
      update_table_part_b [1] [1/2] = .ok LB ∧
      update_graph_part_b_series true 1 [1/2] = .ok ([1/2], ysC) ∧
      update_graph_part_b_series false 1 [1/2] = .ok ([1/2], ysT) ∧
      LB.map RecB.Pc = [1/2] ∧
      LB.map RecB.CPI = ysC.map (fun y => pyRound y 3) ∧
      LB.map RecB.Throughput = ysT.map (fun y => pyRound y 3) :=
  claim9_rounding_policy [3] [3/5] [1/4]
    (by
      intro b hb pt hpt pb hpb
      fin_cases hb
      fin_cases hpt
      fin_cases hpb
      norm_num [cpiA])
    1 [1/2]
    (by
      intro pc hpc
      fin_cases hpc
      norm_num [cpiB])

theorem claim10_monotone_in_accuracy_inst :
    ∃ cpi₁ tp₁ cpi₂ tp₂ : ℚ,
      calculate_with_prediction (1/2) (1/2) 4 (1/4) 1 = .ok (cpi₁, tp₁) ∧
      calculate_with_prediction (1/2) (1/2) 4 (3/4) 1 = .ok (cpi₂, tp₂) ∧
      cpi₂ ≤ cpi₁ ∧ tp₁ ≤ tp₂ :=
  claim10_monotone_in_accuracy (1/2) (1/2) 4 1 (1/4) (3/4) (by norm_num)
    (by norm_num) (by norm_num) (by norm_num) (by norm_num) (by norm_num)
    (by norm_num)

end ThroughputCalculator
